import Mathlib

/-!
Shallow embedding of `cspc_api.py` (the `CspcApi` client class) in Lean 4,
together with theorems checking the natural-language specification against it.

Modelling conventions:
* Python strings are Lean `String`s; Python `None`-able strings are `Option String`.
* `xml.etree.ElementTree.Element` is modelled by the inductive `ElementTree.Element`
  below: a tag, a list of child elements (document order) and the element text.
  Attributes and namespace machinery are not used by the operations embedded
  here except through fully-qualified tag strings, so an element carries no
  attribute map; the text `None` is represented by `""` (`findtext` on a found
  element already collapses `None` text to `""` in Python).
* Exceptions are explicit: a fallible Python function becomes a Lean function
  into `Except PyError _`.
* Network I/O is cut at the boundary: a function that inspects an HTTP
  response takes the `Response` as an argument; a function that only builds a
  request returns a description of that request.
-/

/-- A `requests` HTTP response, reduced to the fields the code inspects. -/
structure Response where
  status_code : Nat
  text : String
deriving DecidableEq, Repr

/-- The Python exceptions the embedded code can raise.  `runtimeError` carries
the full response object, as in `raise RuntimeError(response)`; this is the
error the specification calls `RemoteApiError`.  `attributeError` models
`'NoneType' object has no attribute 'lower'`; `typeError` models
`argument of type 'NoneType' is not iterable` from `in`. -/
inductive PyError where
  | runtimeError (response : Response)
  | attributeError
  | typeError
deriving DecidableEq, Repr

/-- Modelled from the spec (§7): `RemoteApiError` is the error class for a
non-success HTTP status from `/cspc/xml`, carrying the full response; in the
code it is realised as `RuntimeError(response)`. -/
def PyError.isRemoteApiError : PyError → Bool
  | .runtimeError _ => true
  | _ => false

/-- Python `str.lower` restricted to ASCII (all texts compared by the embedded
code are ASCII). -/
def pyLower (s : String) : String := String.mk (s.data.map Char.toLower)

/-- Python `str(x)` for an `Optional[str]`: `str(None) = "None"`. -/
def pyStr : Option String → String
  | some s => s
  | none => "None"

/-- Python `repr` of a `bool` as interpolated by an f-string: `True` / `False`. -/
def pyBool : Bool → String
  | true => "True"
  | false => "False"

/-- List-of-characters test: does `l` start with `p`? -/
def startsWithCL : List Char → List Char → Bool
  | [], _ => true
  | _ :: _, [] => false
  | a :: as, b :: bs => a = b && startsWithCL as bs

/-- List-of-characters substring test: does `hay` contain `needle` as a
contiguous run? -/
def containsCL (needle : List Char) : List Char → Bool
  | [] => startsWithCL needle []
  | c :: cs => startsWithCL needle (c :: cs) || containsCL needle cs

/-- Python's `needle in hay` on strings: contiguous-substring containment,
case-sensitive. -/
def pyIn (needle hay : String) : Bool := containsCL needle.toList hay.toList

namespace ElementTree

/-- A parsed XML element: tag name, children in document order, text.
Text `None` is collapsed to `""` (see the module comment). -/
inductive Element where
  | node (tag : String) (children : List Element) (text : String)

/-- Tag of an element. -/
def Element.tag : Element → String
  | .node t _ _ => t

/-- Children of an element, in document order. -/
def Element.children : Element → List Element
  | .node _ c _ => c

/-- Text of an element (empty string for Python `None`). -/
def Element.text : Element → String
  | .node _ _ x => x

/-- Python `Element.findtext(tag)` for a plain tag path: the text of the first
direct child whose tag matches, `""` standing for found-but-empty text, `none`
when no child matches (Python returns the default `None` then). -/
def Element.findtext (e : Element) (path : String) : Option String :=
  match e.children.find? (fun c => c.tag = path) with
  | some c => some c.text
  | none => none

/-- Preorder (document-order) traversal of a forest of elements: each element
followed by its strict descendants, then its later siblings.  This is the
order in which `ElementTree` visits elements for `.//` searches. -/
def descList : List Element → List Element
  | [] => []
  | Element.node t ch tx :: cs => Element.node t ch tx :: (descList ch ++ descList cs)

/-- The search loop behind `elem_tree.find('.//ns:path')`: the first element
of the forest, in document order, whose (fully qualified) tag matches. -/
def findInElems (tag : String) : List Element → Option Element
  | [] => none
  | Element.node t ch tx :: cs =>
    if t = tag then some (Element.node t ch tx)
    else
      match findInElems tag ch with
      | some r => some r
      | none => findInElems tag cs

mutual

/-- `ElementTree.tostring` on the attribute- and namespace-free elements the
decode claims concern: `<tag>text…children…</tag>`, with the self-closing
`<tag />` form for an element with neither children nor text (Python text
`None`).  Tail text is not modelled (always absent here). -/
def tostring : Element → String
  | Element.node t [] text =>
    if text = "" then "<" ++ t ++ " />"
    else "<" ++ t ++ ">" ++ text ++ "</" ++ t ++ ">"
  | Element.node t (c :: cs) text =>
    "<" ++ t ++ ">" ++ text ++ tostringList (c :: cs) ++ "</" ++ t ++ ">"

/-- Concatenated serialization of a list of sibling elements. -/
def tostringList : List Element → String
  | [] => ""
  | c :: cs => tostring c ++ tostringList cs

end

end ElementTree

open ElementTree

/-- A JSON-like value as `xmltodict` produces it: a text value, Python `None`
for an empty element, an insertion-ordered object, or a list (repeated sibling
tags collapse into one). -/
inductive JVal where
  | s (v : String)
  | null
  | obj (fields : List (String × JVal))
  | arr (items : List JVal)

namespace xmltodict

/-- `xmltodict`'s push of one child value into an ordered mapping: a fresh key
is appended; on a repeat the existing value becomes (or extends) a list. -/
def addField : List (String × JVal) → String → JVal → List (String × JVal)
  | [], k, v => [(k, v)]
  | (k', w) :: rest, k, v =>
    if k' = k then
      match w with
      | JVal.arr items => (k', JVal.arr (items ++ [v])) :: rest
      | _ => (k', JVal.arr [w, v]) :: rest
    else
      (k', w) :: addField rest k v

mutual

/-- The value `xmltodict` associates to one element: its text (or `None` when
empty) for a childless element, otherwise the ordered mapping of its children
(with a `#text` entry when mixed content is present).  Whitespace stripping is
not modelled (no claim input carries surrounding whitespace). -/
def xmltodictValue : Element → JVal
  | Element.node _ [] text => if text = "" then JVal.null else JVal.s text
  | Element.node _ (c :: cs) text =>
    let fields := xmltodictFields [] (c :: cs)
    if text = "" then JVal.obj fields
    else JVal.obj (addField fields "#text" (JVal.s text))

/-- Fold the children of an element into the ordered mapping, left to right. -/
def xmltodictFields (acc : List (String × JVal)) : List Element → List (String × JVal)
  | [] => acc
  | c :: cs => xmltodictFields (addField acc c.tag (xmltodictValue c)) cs

end

mutual

/-- Recursive-descent parser for the fragment grammar the decode claims
exercise (elements with text and child elements; no attributes, comments or
self-closing tags): parse one element `<tag>text children</tag>` off the
front of the input, fuel-bounded. -/
def parseElemCL : Nat → List Char → Option (Element × List Char)
  | 0, _ => none
  | Nat.succ fuel, s =>
    match s with
    | [] => none
    | c :: rest =>
      if c = '<' then
        let tag := rest.takeWhile (fun d => d ≠ '>')
        match rest.dropWhile (fun d => d ≠ '>') with
        | [] => none
        | _ :: rest2 =>
          let txt := rest2.takeWhile (fun d => d ≠ '<')
          let rest3 := rest2.dropWhile (fun d => d ≠ '<')
          match parseChildrenCL fuel rest3 with
          | none => none
          | some (cs, rest4) =>
            match rest4 with
            | c1 :: c2 :: rest5 =>
              if c1 = '<' ∧ c2 = '/' then
                let ctag := rest5.takeWhile (fun d => d ≠ '>')
                match rest5.dropWhile (fun d => d ≠ '>') with
                | [] => none
                | _ :: rest6 =>
                  if ctag = tag then
                    some (Element.node (String.mk tag) cs (String.mk txt), rest6)
                  else none
              else none
            | _ => none
      else none

/-- Parse a run of sibling elements, stopping (without consuming) at a
closing tag `</`. -/
def parseChildrenCL (fuel : Nat) (s : List Char) : Option (List Element × List Char) :=
  if startsWithCL ['<', '/'] s then some ([], s)
  else
    match fuel with
    | 0 => none
    | Nat.succ f =>
      match parseElemCL f s with
      | none => none
      | some (e, r) =>
        match parseChildrenCL f r with
        | none => none
        | some (es, r2) => some (e :: es, r2)

end

/-- `xmltodict.parse` on an attribute- and namespace-free XML string: parse
the root element (the whole input) and wrap its value in `{rootTag: value}`. -/
def parse (s : String) : Option JVal :=
  match parseElemCL (s.data.length + 1) s.data with
  | some (e, []) => some (JVal.obj [(e.tag, xmltodictValue e)])
  | _ => none

end xmltodict

/-- The `CspcApi` instance state: the fields `__init__` stores that the
embedded methods read (`self.host`, `self.user`, `self.password` and
`self.kwargs['verify']`).  The logger, the Basic-Auth header derivation and the
`urllib3` warning toggle are I/O-only and are not represented. -/
structure CspcApi where
  host : String
  user : String
  password : String
  verify : Bool
deriving DecidableEq, Repr

namespace CspcApi

/-- `CspcApi.__init__(host, user, pwd, verify)`: stores `host + ':8001'` as
`self.host` and the credentials verbatim. -/
def init (host user pwd : String) (verify : Bool) : CspcApi :=
  { host := host ++ ":8001", user := user, password := pwd, verify := verify }

/-- Python slice `s[:-5]`: all characters but the last five (empty when the
string is shorter than five characters). -/
def sliceDropLast5 (s : String) : String :=
  String.mk (s.data.take (s.data.length - 5))

/-- `CspcApi.__str__`:
`f"{type(self).__name__}(\"{self.host[:-5]}\", \"{self.user}\", \"{self.password}\", {self.kwargs['verify']})"`. -/
def str_dunder (self : CspcApi) : String :=
  "CspcApi(\"" ++ sliceDropLast5 self.host ++ "\", \"" ++ self.user ++ "\", \""
    ++ self.password ++ "\", " ++ pyBool self.verify ++ ")"

/-- `CspcApi._xml(payload)` from the point where the HTTP response is in hand:
raises `RuntimeError(response)` when `response.status_code != 200`, otherwise
returns `response.text` (the body). The `payload` only feeds the POST itself,
which is cut at the boundary, so the function is a function of the response. -/
def _xml (response : Response) : Except PyError String :=
  if response.status_code ≠ 200 then
    Except.error (PyError.runtimeError response)
  else
    Except.ok response.text

/-- The second argument of `_check_in_str`: a Python `str` or a `set` of
strings (the set is carried as its list of members; only emptiness and
existential membership matter to the embedded code). -/
inductive StrOrSet where
  | str (s : String)
  | set (items : List String)

/-- `CspcApi._check_in_str(string_to_check, check)`: for a string `check`,
Python `check in string_to_check` (a `TypeError` when `string_to_check` is
`None`); for a set, `any(item in string_to_check for item in check)` — the
generator never touches `string_to_check` when the set is empty, so an empty
set yields `False` even on `None`. -/
def _check_in_str (string_to_check : Option String) (check : StrOrSet) :
    Except PyError Bool :=
  match check with
  | .str c =>
    match string_to_check with
    | some s => Except.ok (pyIn c s)
    | none => Except.error PyError.typeError
  | .set items =>
    match items, string_to_check with
    | [], _ => Except.ok false
    | _ :: _, none => Except.error PyError.typeError
    | it :: its, some s => Except.ok ((it :: its).any fun item => pyIn item s)

/-- Python `dict` assignment `m[k] = v` on an insertion-ordered string dict:
update in place when the key exists, append otherwise. -/
def dictSet (m : List (String × String)) (k v : String) : List (String × String) :=
  if m.any (fun p => p.1 = k) then
    m.map (fun p => if p.1 = k then (k, v) else p)
  else
    m ++ [(k, v)]

/-- The per-device loop body of `get_devices_by`: an empty dict filled with
`device_dict[child.tag] = str(device.findtext(child.tag))` for each child in
document order. -/
def deviceDict (device : Element) : List (String × String) :=
  device.children.foldl (fun m c => dictSet m c.tag (pyStr (device.findtext c.tag))) []

/-- `CspcApi.get_unreachable_devices`, from the point where the `Device`
elements of the appliance response are in hand: keeps every device whose
`Status` text lowercased differs from `"reachable"`, rendered as the
four-entry dict `{Id, HostName, IPAddress, Status}`; a device without a
`Status` child makes `elem.findtext('Status').lower()` raise
`AttributeError`. -/
def get_unreachable_devices (devices : List Element) :
    Except PyError (List (List (String × String))) :=
  match devices with
  | [] => Except.ok []
  | elem :: rest =>
    match elem.findtext "Status" with
    | none => Except.error PyError.attributeError
    | some st =>
      match get_unreachable_devices rest with
      | Except.error e => Except.error e
      | Except.ok tail =>
        if pyLower st ≠ "reachable" then
          Except.ok ([("Id", pyStr (elem.findtext "Id")),
                      ("HostName", pyStr (elem.findtext "HostName")),
                      ("IPAddress", pyStr (elem.findtext "IPAddress")),
                      ("Status", pyStr (elem.findtext "Status"))] :: tail)
        else
          Except.ok tail

/-- `CspcApi.get_devices_by(key, value)`, from the point where the `Device`
elements are in hand: keeps every device for which `_check_in_str` accepts the
text of its `key` child, rendered as the flat all-fields dict built by the
inner loop (`deviceDict`). -/
def get_devices_by (devices : List Element) (key : String) (value : StrOrSet) :
    Except PyError (List (List (String × String))) :=
  match devices with
  | [] => Except.ok []
  | device :: rest =>
    match _check_in_str (device.findtext key) value with
    | Except.error e => Except.error e
    | Except.ok b =>
      match get_devices_by rest key value with
      | Except.error e => Except.error e
      | Except.ok tail =>
        Except.ok (if b then deviceDict device :: tail else tail)

/-- `CspcApi.xml_to_json_elem(xml)`: accepts a parsed element or a raw
string; an element is serialized with `ElementTree.tostring` first; either
way the resulting string goes through `xmltodict.parse`. -/
def xml_to_json_elem : Element ⊕ String → Option JVal
  | Sum.inl xml => xmltodict.parse (tostring xml)
  | Sum.inr xml_string => xmltodict.parse xml_string

/-- The XML namespace URI registered at class-load time and used for the
`ns:` prefix in `_get_xml_elem`. -/
def nsUri : String := "http://www.parinetworks.com/api/schemas/1.1"

/-- The fully qualified tag `ElementTree` gives a parsed element of the
registered namespace: `\x7buri\x7dtag`. -/
def qualifyNs (path : String) : String := "\x7b" ++ nsUri ++ "\x7d" ++ path

/-- `CspcApi._get_xml_elem(path, elem_tree)`:
`elem_tree.find(f'.//ns:\x7bpath\x7d', namespaces=ns)` — the first strict
descendant of the root, in document order, whose qualified tag matches; the
Python `find` returns `None` (here `none`) when there is no match. -/
def _get_xml_elem (path : String) (elem_tree : Element) : Option Element :=
  findInElems (qualifyNs path) elem_tree.children

/-- `CspcApi.get_formatted_csv_device_entry`: the fixed 36-column CSV line,
built exactly as the source's f-string over the 36 `colN_...` locals. -/
def get_formatted_csv_device_entry (ipaddress : String) (hostname : String := "")
    (username : String := "") (password : String := "") (enable_password : String := "")
    (snmp_v2_RO : String := "") (snmp_v2_RW : String := "") : String :=
  let col1_IP_Address_including_domain_or_simply_an_IP := ipaddress
  let col2_Host_Name := hostname
  let col3_Domain_Name := ""
  let col4_Device_Identity := ""
  let col5_Display_Name := ""
  let col6_SysObjectID := ""
  let col7_DCR_Device_Type := ""
  let col8_MDF_Type := ""
  let col9_Snmp_RO := snmp_v2_RO
  let col10_Snmp_RW := snmp_v2_RW
  let col11_SnmpV3_User_Name := ""
  let col12_Snmp_V3_Auth_Pass := ""
  let col13_Snmp_V3_Engine_ID := ""
  let col14_Snmp_V3_Auth_Algorithm := ""
  let col15_RX_Boot_Mode_User := ""
  let col16_RX_Boot_Mode_Pass := ""
  let col17_Primary_User_Tacacs_User := username
  let col18_Primary_Pass_Tacacs_Pass := password
  let col19_Primary_Enable_Pass := enable_password
  let col20_Http_User := ""
  let col21_Http_Pass := ""
  let col22_Http_Mode := ""
  let col23_Http_Port := ""
  let col24_Https_Port := ""
  let col25_Cert_Common_Name := ""
  let col26_Secondary_User := ""
  let col27_Secondary_Pass := ""
  let col28_Secondary_Enable_Pass := ""
  let col29_Secondary_Http_User := ""
  let col30_Secondary_Http_Pass := ""
  let col31_Snmp_V3_Priv_Algorithm := ""
  let col32_Snmp_V3_Priv_Pass := ""
  let col33_User_Field_1 := ""
  let col34_User_Field_2 := ""
  let col35_User_Field_3 := ""
  let col36_User_Field_4 := ""
  col1_IP_Address_including_domain_or_simply_an_IP ++ "," ++ col2_Host_Name ++ ","
    ++ col3_Domain_Name ++ "," ++ col4_Device_Identity ++ "," ++ col5_Display_Name ++ ","
    ++ col6_SysObjectID ++ "," ++ col7_DCR_Device_Type ++ "," ++ col8_MDF_Type ++ ","
    ++ col9_Snmp_RO ++ "," ++ col10_Snmp_RW ++ "," ++ col11_SnmpV3_User_Name ++ ","
    ++ col12_Snmp_V3_Auth_Pass ++ "," ++ col13_Snmp_V3_Engine_ID ++ ","
    ++ col14_Snmp_V3_Auth_Algorithm ++ "," ++ col15_RX_Boot_Mode_User ++ ","
    ++ col16_RX_Boot_Mode_Pass ++ "," ++ col17_Primary_User_Tacacs_User ++ ","
    ++ col18_Primary_Pass_Tacacs_Pass ++ "," ++ col19_Primary_Enable_Pass ++ ","
    ++ col20_Http_User ++ "," ++ col21_Http_Pass ++ "," ++ col22_Http_Mode ++ ","
    ++ col23_Http_Port ++ "," ++ col24_Https_Port ++ "," ++ col25_Cert_Common_Name ++ ","
    ++ col26_Secondary_User ++ "," ++ col27_Secondary_Pass ++ ","
    ++ col28_Secondary_Enable_Pass ++ "," ++ col29_Secondary_Http_User ++ ","
    ++ col30_Secondary_Http_Pass ++ "," ++ col31_Snmp_V3_Priv_Algorithm ++ ","
    ++ col32_Snmp_V3_Priv_Pass ++ "," ++ col33_User_Field_1 ++ "," ++ col34_User_Field_2
    ++ "," ++ col35_User_Field_3 ++ "," ++ col36_User_Field_4 ++ "\n"

end CspcApi

/-- Split a character list at every comma, the way a CSV consumer reads the
fields of a line: `n` commas yield `n + 1` fields. -/
def splitCommaCL : List Char → List (List Char)
  | [] => [[]]
  | c :: rest =>
    if c = ',' then
      [] :: splitCommaCL rest
    else
      match splitCommaCL rest with
      | [] => [[c]]
      | f :: fs => (c :: f) :: fs

/-- Join fields with comma separators (the inverse of `splitCommaCL` on
comma-free fields). -/
def joinCommaCL : List (List Char) → List Char
  | [] => []
  | [f] => f
  | f :: fs => f ++ ',' :: joinCommaCL fs

/-- A wall-clock instant as `time.localtime` exposes it to `time.strftime`. -/
structure Timestamp where
  year : Nat
  month : Nat
  day : Nat
  hour : Nat
  minute : Nat
  second : Nat

/-- Zero-padded decimal rendering of width `w`, as `strftime` uses for its
numeric directives. -/
def padNum (w n : Nat) : String :=
  let s := toString n
  String.mk (List.replicate (w - s.length) '0') ++ s

/-- `time.strftime("%Y%m%d-%H%M%S")` at a given instant. -/
def strftime_compact (t : Timestamp) : String :=
  padNum 4 t.year ++ padNum 2 t.month ++ padNum 2 t.day ++ "-"
    ++ padNum 2 t.hour ++ padNum 2 t.minute ++ padNum 2 t.second

/-- One part of a `requests` multipart upload: optional filename and content
(the tuple `(filename, body)` the code passes in `files`). -/
structure MultipartFile where
  filename : Option String
  content : String

/-- The outbound multipart POST that `send_and_import_seed_file_csv` issues,
reduced to what the call passes to `requests.post`: URL, named parts, and the
`verify` keyword.  Headers are forwarded unchanged from the context and are
not repeated here. -/
structure MultipartRequest where
  url : String
  files : List (String × MultipartFile)
  verify : Bool

namespace CspcApi

/-- `CspcApi.send_and_import_seed_file_csv(csv, device_group_name)`, cut at
the `requests.post` boundary: builds the timestamped seed-file name and the
one-off job-submission XML document, and returns the multipart request it
posts — note the hard-coded `verify=False`. -/
def send_and_import_seed_file_csv (self : CspcApi) (now : Timestamp)
    (csv device_group_name : String) : MultipartRequest :=
  let seed_file_name := device_group_name ++ "-" ++ strftime_compact now ++ ".csv"
  let xmlrequest :=
    "\n        <Request>\n            <Job>\n                <Schedule operationId=\"1\">\n                <JobSchedule runnow=\"true\"/>\n                <ImportSeedFileJob jobName=\"testimport\">\n                    <Description>Import SeedFile Job </Description>\n                    <DeviceGroup>"
      ++ device_group_name
      ++ "</DeviceGroup>\n                    <SeedFileDescr>cnc seed file</SeedFileDescr>\n                    <SeedFileFormat>CISCO_CNC_CSV</SeedFileFormat>\n                    <FileDetails>\n                    <SeedFileName>"
      ++ seed_file_name
      ++ "</SeedFileName>\n                    </FileDetails>\n                    <TriggerDiscovery>true</TriggerDiscovery>\n                    <TriggerDav>false</TriggerDav>\n                </ImportSeedFileJob>\n                </Schedule>\n            </Job>\n        </Request>\n        "
  { url := "https://" ++ self.host ++ "/cspc/seedfile",
    files := [("request", ⟨none, xmlrequest⟩), ("file", ⟨some seed_file_name, csv⟩)],
    verify := false }

end CspcApi

/-- A tag usable in the serialized fragments the decode claims exercise:
nonempty, and free of the `<`, `>`, `/` metacharacters. -/
def wfXmlTag (t : String) : Prop :=
  t.data ≠ [] ∧ '<' ∉ t.data ∧ '>' ∉ t.data ∧ '/' ∉ t.data

/-- A leaf text usable in those fragments: nonempty and free of `<`. -/
def wfXmlText (x : String) : Prop :=
  x.data ≠ [] ∧ '<' ∉ x.data

instance (t : String) : Decidable (wfXmlTag t) :=
  inferInstanceAs (Decidable (t.data ≠ [] ∧ '<' ∉ t.data ∧ '>' ∉ t.data ∧ '/' ∉ t.data))

instance (x : String) : Decidable (wfXmlText x) :=
  inferInstanceAs (Decidable (x.data ≠ [] ∧ '<' ∉ x.data))

/-- Character-level serialization of one leaf child `(tag, text)`:
`<tag>text</tag>`. -/
def serializeLeaf (p : String × String) : List Char :=
  '<' :: p.1.data ++ '>' :: p.2.data ++ '<' :: '/' :: p.1.data ++ ['>']

/-- Character-level serialization of a list of leaf children. -/
def serializeLeaves : List (String × String) → List Char
  | [] => []
  | p :: ps => serializeLeaf p ++ serializeLeaves ps

/-- Sample device with `Status` text `"Reachable"`. -/
def devReachable : Element :=
  Element.node "Device"
    [Element.node "Id" [] "1", Element.node "HostName" [] "h1",
     Element.node "IPAddress" [] "10.0.0.1", Element.node "Status" [] "Reachable"] ""

/-- Sample device with `Status` text `"Unreachable"`. -/
def devUnreachable : Element :=
  Element.node "Device"
    [Element.node "Id" [] "2", Element.node "HostName" [] "h2",
     Element.node "IPAddress" [] "10.0.0.2", Element.node "Status" [] "Unreachable"] ""

/-- Sample device with the case-variant `Status` text `"reachable"`. -/
def devReachableLower : Element :=
  Element.node "Device"
    [Element.node "Id" [] "3", Element.node "HostName" [] "h3",
     Element.node "IPAddress" [] "10.0.0.3", Element.node "Status" [] "reachable"] ""

/-- Sample device lacking a `Status` child. -/
def devNoStatus : Element :=
  Element.node "Device"
    [Element.node "Id" [] "4", Element.node "HostName" [] "h4",
     Element.node "IPAddress" [] "10.0.0.4"] ""

/-- C3: `_xml` raises exactly on non-200 status, the raised error is the
spec's `RemoteApiError` (a `RuntimeError` carrying the full response object),
and on status 200 the raw body is returned unchanged. -/
theorem C3_postXml_raises_iff_non200 (response : Response) :
    (∀ e, CspcApi._xml response = Except.error e ↔
        response.status_code ≠ 200 ∧ e = PyError.runtimeError response)
    ∧ (response.status_code = 200 → CspcApi._xml response = Except.ok response.text)
    ∧ (∀ e, CspcApi._xml response = Except.error e → e.isRemoteApiError = true) := by
  refine ⟨fun e => ?_, fun h => ?_, fun e he => ?_⟩
  · unfold CspcApi._xml
    split
    · rename_i hne
      simp only [Except.error.injEq]
      constructor
      · intro h
        exact ⟨hne, h.symm⟩
      · intro ⟨_, he⟩
        exact he.symm
    · rename_i hok
      push_neg at hok
      constructor
      · intro h
        cases h
      · intro ⟨hne, _⟩
        exact absurd hok hne
  · unfold CspcApi._xml
    simp [h]
  · unfold CspcApi._xml at he
    split at he
    · cases he
      rfl
    · cases he

/-- Witness for C3 at a concrete 500 response and a concrete 200 response:
the hypotheses of the component statements are discharged at
`Response.mk 200 "ok-body"`. -/
theorem C3_postXml_raises_iff_non200_witness :
    CspcApi._xml (Response.mk 200 "ok-body") = Except.ok "ok-body" :=
  (C3_postXml_raises_iff_non200 (Response.mk 200 "ok-body")).2.1 rfl

/-- C7: the display string of a context built by the constructor is
`CspcApi("host", "user", "password", verify)` with the original host (the
`':8001'` suffix stripped back off by the `[:-5]` slice) and the plaintext
password; in particular `CspcApi("1.1.1.1", "user", "pw", True)` for the
documented example. -/
theorem C7_str_dunder_format (host user pw : String) (verify : Bool) :
    CspcApi.str_dunder (CspcApi.init host user pw verify) =
      "CspcApi(\"" ++ host ++ "\", \"" ++ user ++ "\", \"" ++ pw ++ "\", "
        ++ pyBool verify ++ ")"
    ∧ CspcApi.str_dunder (CspcApi.init "1.1.1.1" "user" "pw" true) =
      "CspcApi(\"1.1.1.1\", \"user\", \"pw\", True)" := by
  constructor
  · have hslice : CspcApi.sliceDropLast5 (host ++ ":8001") = host := by
      unfold CspcApi.sliceDropLast5
      have hd : (host ++ ":8001").data = host.data ++ [':', '8', '0', '0', '1'] := rfl
      rw [hd]
      have hlen : (host.data ++ [':', '8', '0', '0', '1']).length - 5 = host.data.length := by
        simp
      rw [hlen, List.take_left]
    unfold CspcApi.str_dunder CspcApi.init
    simp only
    rw [hslice]
  · rfl

/-- C1: on a device list where every device has the four children `Id`,
`HostName`, `IPAddress`, `Status`, `get_unreachable_devices` returns exactly
the devices whose `Status` text is not `"reachable"` case-insensitively, in
input order, each as the four-key mapping whose values are the corresponding
child texts. -/
theorem C1_unreachable_filter (devices : List Element)
    (h : ∀ d ∈ devices, (d.findtext "Status").isSome ∧ (d.findtext "Id").isSome
        ∧ (d.findtext "HostName").isSome ∧ (d.findtext "IPAddress").isSome) :
    CspcApi.get_unreachable_devices devices =
      Except.ok (((devices.filter
          fun d => pyLower ((d.findtext "Status").getD "") != "reachable").map
        fun d => [("Id", (d.findtext "Id").getD ""),
                  ("HostName", (d.findtext "HostName").getD ""),
                  ("IPAddress", (d.findtext "IPAddress").getD ""),
                  ("Status", (d.findtext "Status").getD "")])) := by
  induction devices with
  | nil => rfl
  | cons elem rest ih =>
    obtain ⟨hst, hid, hhn, hip⟩ := h elem (List.mem_cons_self _ _)
    obtain ⟨st, hst⟩ := Option.isSome_iff_exists.mp hst
    obtain ⟨i, hi⟩ := Option.isSome_iff_exists.mp hid
    obtain ⟨hn, hhn⟩ := Option.isSome_iff_exists.mp hhn
    obtain ⟨ip, hip⟩ := Option.isSome_iff_exists.mp hip
    have htail := ih (fun d hd => h d (List.mem_cons_of_mem _ hd))
    unfold CspcApi.get_unreachable_devices
    rw [hst, htail]
    by_cases hr : pyLower st = "reachable"
    · have hfilter : (pyLower (((elem.findtext "Status").getD "")) != "reachable") = false := by
        rw [hst]
        simpa using hr
      simp [List.filter_cons, hfilter, hr]
    · have hfilter : (pyLower (((elem.findtext "Status").getD "")) != "reachable") = true := by
        rw [hst]
        simpa using hr
      simp [List.filter_cons, hfilter, hr, pyStr, hst, hi, hhn, hip]

/-- Witness for C1: of the three sample devices with `Status` `"Reachable"`,
`"Unreachable"`, `"reachable"`, exactly the `"Unreachable"` one is returned,
with exactly the four keys. -/
theorem C1_unreachable_filter_witness :
    CspcApi.get_unreachable_devices [devReachable, devUnreachable, devReachableLower] =
      Except.ok [[("Id", "2"), ("HostName", "h2"),
                  ("IPAddress", "10.0.0.2"), ("Status", "Unreachable")]] := by
  rw [C1_unreachable_filter [devReachable, devUnreachable, devReachableLower]
    (by decide)]
  rfl

/-- C10: whenever some device in the list has no `Status` child,
`get_unreachable_devices` raises (an `AttributeError` from
`None.lower()`) rather than skipping that device or including it. -/
theorem C10_missing_status_raises (devices : List Element)
    (h : ∃ d ∈ devices, d.findtext "Status" = none) :
    CspcApi.get_unreachable_devices devices = Except.error PyError.attributeError := by
  induction devices with
  | nil => obtain ⟨d, hd, _⟩ := h; cases hd
  | cons elem rest ih =>
    unfold CspcApi.get_unreachable_devices
    cases helem : elem.findtext "Status" with
    | none => rfl
    | some st =>
      obtain ⟨d, hd, hnone⟩ := h
      rcases List.mem_cons.mp hd with rfl | hd
      · rw [helem] at hnone; cases hnone
      · rw [ih ⟨d, hd, hnone⟩]

/-- Witness for C10: a list containing the sample device that lacks a
`Status` child makes the call fail with `AttributeError`. -/
theorem C10_missing_status_raises_witness :
    CspcApi.get_unreachable_devices [devReachable, devNoStatus] =
      Except.error PyError.attributeError :=
  C10_missing_status_raises [devReachable, devNoStatus]
    ⟨devNoStatus, List.mem_cons_of_mem _ (List.mem_cons_self _ _), rfl⟩

/-- C2: on a device list where every device has a `key` child,
`get_devices_by` retains a device exactly when the string value is a
case-sensitive substring of the `key` child's text, or the set value has some
member that is such a substring; retained devices come back in input order as
the flat all-fields dict. -/
theorem C2_find_devices_by (devices : List Element) (key : String) (value : CspcApi.StrOrSet)
    (h : ∀ d ∈ devices, (d.findtext key).isSome) :
    CspcApi.get_devices_by devices key value =
      Except.ok (((devices.filter fun d =>
          match value with
          | .str v => pyIn v ((d.findtext key).getD "")
          | .set items => items.any fun item => pyIn item ((d.findtext key).getD "")).map
        CspcApi.deviceDict)) := by
  induction devices with
  | nil => rfl
  | cons device rest ih =>
    obtain ⟨s, hs⟩ := Option.isSome_iff_exists.mp (h device (List.mem_cons_self _ _))
    have htail := ih (fun d hd => h d (List.mem_cons_of_mem _ hd))
    unfold CspcApi.get_devices_by
    rw [htail]
    cases value with
    | str v =>
      simp only [CspcApi._check_in_str, hs, List.filter_cons]
      by_cases hm : pyIn v s = true
      · simp [hs, hm]
      · simp [hs, hm]
    | set items =>
      cases items with
      | nil => simp [CspcApi._check_in_str, hs, List.filter_cons]
      | cons it its =>
        simp only [CspcApi._check_in_str, hs, List.filter_cons]
        by_cases hm : ((it :: its).any fun item => pyIn item s) = true
        · simp [hs, hm]
        · simp [hs, hm]

/-- Witness for C2: with `HostName` values `"switch1"` and `"router2"`,
filtering by the string `"switch"` returns exactly the `switch1` record with
all its fields. -/
theorem C2_find_devices_by_witness :
    CspcApi.get_devices_by [devReachable, devUnreachable] "HostName"
        (CspcApi.StrOrSet.str "h1") =
      Except.ok [[("Id", "1"), ("HostName", "h1"),
                  ("IPAddress", "10.0.0.1"), ("Status", "Reachable")]] := by
  rw [C2_find_devices_by [devReachable, devUnreachable] "HostName"
    (CspcApi.StrOrSet.str "h1") (by decide)]
  rfl

/-- The `.//` search loop visits elements in document order: `findInElems` is
`find?` over the preorder traversal. -/
theorem findInElems_eq_find?_descList (tag : String) (l : List Element) :
    findInElems tag l = (descList l).find? (fun e => e.tag = tag) := by
  induction l using ElementTree.findInElems.induct tag with
  | case1 => simp [findInElems, descList]
  | case2 ch tx cs =>
    simp [findInElems, descList, Element.tag]
  | case3 t ch tx cs htag r hr ih =>
    have hch : (descList ch).find? (fun e => e.tag = tag) = some r := by
      rw [← ih]; exact hr
    simp only [Element.tag] at hch
    simp [findInElems, descList, htag, Element.tag, hr, hch, List.find?_cons, Option.or]
  | case4 t ch tx cs htag hnone ih1 ih2 =>
    have hch : (descList ch).find? (fun e => e.tag = tag) = none := by
      rw [← ih1]; exact hnone
    simp only [Element.tag] at hch ih2
    simp [findInElems, descList, htag, Element.tag, hnone, hch, ih2, List.find?_cons,
      Option.or]

/-- C4 (counterexample): a document whose only element bearing the requested
qualified tag is the root itself: `_get_xml_elem` raises nothing — its result
type `Option Element` has no error case — and returns `none`, not the
matching root element. -/
theorem C4_find_container_counterexample :
    CspcApi._get_xml_elem "Request"
      (Element.node (CspcApi.qualifyNs "Request") [] "") = none := by
  simp [CspcApi._get_xml_elem, findInElems, Element.children]

/-- C4 (amended): `_get_xml_elem` returns `none` — rather than failing with
`ContainerNotFoundError` — when no strict descendant of the root carries the
requested namespace-qualified tag, and otherwise returns the first matching
strict descendant in document order (the root itself is never considered). -/
theorem C4_find_container_amended (path : String) (elem_tree : Element) :
    CspcApi._get_xml_elem path elem_tree =
      (descList elem_tree.children).find? (fun e => e.tag = CspcApi.qualifyNs path) :=
  findInElems_eq_find?_descList (CspcApi.qualifyNs path) elem_tree.children

/-- A comma-free character list is a single CSV field. -/
theorem splitCommaCL_of_not_mem {f : List Char} (hf : ',' ∉ f) :
    splitCommaCL f = [f] := by
  induction f with
  | nil => rfl
  | cons c rest ih =>
    have hc : ¬(c = ',') := fun hcc => hf (hcc ▸ List.mem_cons_self _ _)
    have hrest : ',' ∉ rest := fun hm => hf (List.mem_cons_of_mem _ hm)
    simp [splitCommaCL, hc, ih hrest]

/-- Splitting peels a leading comma-free field off at its separating comma. -/
theorem splitCommaCL_append (f : List Char) (hf : ',' ∉ f) (r : List Char) :
    splitCommaCL (f ++ ',' :: r) = f :: splitCommaCL r := by
  induction f with
  | nil => simp [splitCommaCL]
  | cons c g ih =>
    have hc : ¬(c = ',') := fun hcc => hf (hcc ▸ List.mem_cons_self _ _)
    have hg : ',' ∉ g := fun hm => hf (List.mem_cons_of_mem _ hm)
    simp [splitCommaCL, hc, ih hg]

/-- Splitting inverts joining on comma-free fields. -/
theorem splitCommaCL_joinCommaCL : ∀ fs : List (List Char), fs ≠ [] →
    (∀ f ∈ fs, ',' ∉ f) → splitCommaCL (joinCommaCL fs) = fs
  | [], h, _ => absurd rfl h
  | [f], _, hall => by
    simp [joinCommaCL, splitCommaCL_of_not_mem (hall f (List.mem_cons_self _ _))]
  | f :: g :: fs, _, hall => by
    have h1 : ',' ∉ f := hall f (List.mem_cons_self _ _)
    have hrest : ∀ x ∈ g :: fs, ',' ∉ x := fun x hx => hall x (List.mem_cons_of_mem _ hx)
    show splitCommaCL (f ++ ',' :: joinCommaCL (g :: fs)) = f :: g :: fs
    rw [splitCommaCL_append f h1, splitCommaCL_joinCommaCL (g :: fs) (by simp) hrest]

/-- A character other than the comma separator occurs in a joined line only
through one of the fields. -/
theorem not_mem_joinCommaCL {c : Char} (hc : c ≠ ',') :
    ∀ fs : List (List Char), (∀ f ∈ fs, c ∉ f) → c ∉ joinCommaCL fs
  | [], _ => by simp [joinCommaCL]
  | [f], h => by simpa [joinCommaCL] using h f (List.mem_cons_self _ _)
  | f :: g :: fs, h => by
    intro hmem
    replace hmem : c ∈ f ++ ',' :: joinCommaCL (g :: fs) := hmem
    rcases List.mem_append.mp hmem with hf | hx
    · exact h f (List.mem_cons_self _ _) hf
    · rcases List.mem_cons.mp hx with hcc | hj
      · exact hc hcc
      · exact not_mem_joinCommaCL hc (g :: fs)
          (fun x hx => h x (List.mem_cons_of_mem _ hx)) hj

/-- C5 (counterexample): the CSV row does not always carry 35 commas as the
claim states — a hostname containing a comma (nothing is quoted or escaped)
yields a row with 36 commas, splitting into 37 fields with the hostname no
longer in a single column. -/
theorem C5_csv_counterexample :
    (CspcApi.get_formatted_csv_device_entry "10.0.0.1" "a,b").data.count ',' = 36
    ∧ (splitCommaCL ((CspcApi.get_formatted_csv_device_entry
        "10.0.0.1" "a,b").data)).length = 37 := by
  constructor <;> decide

/-- C5 (amended): provided none of the seven arguments contains a comma or a
newline, the row is a single newline-terminated line whose comma-split is
exactly 36 fields: the IP first, hostname in column 2, SNMP read/write in
columns 9/10, username/password/enable-password in columns 17/18/19, every
other column empty. -/
theorem C5_csv_row_shape (ip hn un pw en ro rw : String)
    (h : ∀ s ∈ [ip, hn, un, pw, en, ro, rw], ',' ∉ s.data ∧ '\n' ∉ s.data) :
    ∃ body,
      (CspcApi.get_formatted_csv_device_entry ip hn un pw en ro rw).data = body ++ ['\n']
      ∧ '\n' ∉ body
      ∧ splitCommaCL body =
          [ip.data, hn.data, [], [], [], [], [], [], ro.data, rw.data,
           [], [], [], [], [], [], un.data, pw.data, en.data,
           [], [], [], [], [], [], [], [], [], [], [], [], [], [], [], [], []]
      ∧ (splitCommaCL body).length = 36 := by
  have hip := h ip (by simp)
  have hhn := h hn (by simp)
  have hun := h un (by simp)
  have hpw := h pw (by simp)
  have hen := h en (by simp)
  have hro := h ro (by simp)
  have hrw := h rw (by simp)
  have hallc : ∀ f ∈
      ([ip.data, hn.data, [], [], [], [], [], [], ro.data, rw.data,
        [], [], [], [], [], [], un.data, pw.data, en.data,
        [], [], [], [], [], [], [], [], [], [], [], [], [], [], [], [], []] :
        List (List Char)), ',' ∉ f := by
    intro f hf
    simp only [List.mem_cons, List.not_mem_nil, or_false] at hf
    rcases hf with rfl|rfl|rfl|rfl|rfl|rfl|rfl|rfl|rfl|rfl|rfl|rfl|rfl|rfl|rfl|rfl|rfl|rfl|rfl|rfl|rfl|rfl|rfl|rfl|rfl|rfl|rfl|rfl|rfl|rfl|rfl|rfl|rfl|rfl|rfl|rfl
    all_goals first
      | exact hip.1 | exact hhn.1 | exact hro.1 | exact hrw.1
      | exact hun.1 | exact hpw.1 | exact hen.1 | simp
  have halln : ∀ f ∈
      ([ip.data, hn.data, [], [], [], [], [], [], ro.data, rw.data,
        [], [], [], [], [], [], un.data, pw.data, en.data,
        [], [], [], [], [], [], [], [], [], [], [], [], [], [], [], [], []] :
        List (List Char)), '\n' ∉ f := by
    intro f hf
    simp only [List.mem_cons, List.not_mem_nil, or_false] at hf
    rcases hf with rfl|rfl|rfl|rfl|rfl|rfl|rfl|rfl|rfl|rfl|rfl|rfl|rfl|rfl|rfl|rfl|rfl|rfl|rfl|rfl|rfl|rfl|rfl|rfl|rfl|rfl|rfl|rfl|rfl|rfl|rfl|rfl|rfl|rfl|rfl|rfl
    all_goals first
      | exact hip.2 | exact hhn.2 | exact hro.2 | exact hrw.2
      | exact hun.2 | exact hpw.2 | exact hen.2 | simp
  refine ⟨joinCommaCL
      [ip.data, hn.data, [], [], [], [], [], [], ro.data, rw.data,
       [], [], [], [], [], [], un.data, pw.data, en.data,
       [], [], [], [], [], [], [], [], [], [], [], [], [], [], [], [], []],
    ?_, ?_, ?_, ?_⟩
  · simp only [CspcApi.get_formatted_csv_device_entry, joinCommaCL, String.data_append,
      List.append_assoc, show (",").data = [','] from rfl,
      show ("\n").data = ['\n'] from rfl, show ("").data = ([] : List Char) from rfl,
      List.nil_append, List.cons_append, List.singleton_append]
  · exact not_mem_joinCommaCL (by decide) _ halln
  · exact splitCommaCL_joinCommaCL _ (by simp) hallc
  · rw [splitCommaCL_joinCommaCL _ (by simp) hallc]
    rfl

/-- Witness for C5 (amended): `get_formatted_csv_device_entry("10.0.0.1")`
(all other arguments defaulted to `''`) satisfies the row-shape property. -/
theorem C5_csv_row_shape_witness :
    ∃ body,
      (CspcApi.get_formatted_csv_device_entry "10.0.0.1" "" "" "" "" "" "").data
          = body ++ ['\n']
      ∧ '\n' ∉ body
      ∧ splitCommaCL body =
          ["10.0.0.1".data, "".data, [], [], [], [], [], [], "".data, "".data,
           [], [], [], [], [], [], "".data, "".data, "".data,
           [], [], [], [], [], [], [], [], [], [], [], [], [], [], [], [], []]
      ∧ (splitCommaCL body).length = 36 :=
  C5_csv_row_shape "10.0.0.1" "" "" "" "" "" "" (by decide)

/-- C6: for every credential context — the verification flag notwithstanding,
in particular for a context constructed with `verify=True` — the seed-file
upload POSTs to `/cspc/seedfile` with TLS verification hard-coded off, and
the uploaded file part is named `"{groupName}-{YYYYMMDD-HHMMSS}.csv"` from the
group name and the current timestamp. -/
theorem C6_seedfile_verify_off (self : CspcApi) (now : Timestamp) (csv g : String) :
    (CspcApi.send_and_import_seed_file_csv self now csv g).verify = false
    ∧ (CspcApi.send_and_import_seed_file_csv self now csv g).url
        = "https://" ++ self.host ++ "/cspc/seedfile"
    ∧ (∃ requestPart,
        (CspcApi.send_and_import_seed_file_csv self now csv g).files
          = [("request", requestPart),
             ("file", ⟨some (g ++ "-" ++ strftime_compact now ++ ".csv"), csv⟩)])
    ∧ ∀ host user pwd : String,
        (CspcApi.send_and_import_seed_file_csv
            (CspcApi.init host user pwd true) now csv g).verify = false :=
  ⟨rfl, rfl, ⟨_, rfl⟩, fun _ _ _ => rfl⟩

/-- Scanning for a delimiter collects exactly the delimiter-free stretch in
front of it. -/
theorem takeWhile_neq_append (t : List Char) (b : Char) (hb : b ∉ t) (r : List Char) :
    (t ++ b :: r).takeWhile (fun d => d ≠ b) = t := by
  induction t with
  | nil => simp
  | cons c t' ih =>
    have hc : c ≠ b := fun hcb => hb (hcb ▸ List.mem_cons_self _ _)
    have ht' : b ∉ t' := fun hm => hb (List.mem_cons_of_mem _ hm)
    rw [List.cons_append, List.takeWhile_cons_of_pos (by simp [hc]), ih ht']

/-- Scanning for a delimiter leaves the delimiter and everything after it. -/
theorem dropWhile_neq_append (t : List Char) (b : Char) (hb : b ∉ t) (r : List Char) :
    (t ++ b :: r).dropWhile (fun d => d ≠ b) = b :: r := by
  induction t with
  | nil => simp
  | cons c t' ih =>
    have hc : c ≠ b := fun hcb => hb (hcb ▸ List.mem_cons_self _ _)
    have ht' : b ∉ t' := fun hm => hb (List.mem_cons_of_mem _ hm)
    rw [List.cons_append, List.dropWhile_cons_of_pos (by simp [hc]), ih ht']

/-- Pushing a fresh key appends it at the end of the ordered mapping. -/
theorem addField_of_fresh (m : List (String × JVal)) (k : String) (v : JVal)
    (h : ∀ p ∈ m, p.1 ≠ k) : xmltodict.addField m k v = m ++ [(k, v)] := by
  induction m with
  | nil => rfl
  | cons q rest ih =>
    obtain ⟨k', w⟩ := q
    have hk' : k' ≠ k := h (k', w) (List.mem_cons_self _ _)
    simp only [xmltodict.addField, hk', if_false]
    rw [ih (fun p hp => h p (List.mem_cons_of_mem _ hp))]
    simp

/-- Folding pairwise-distinct leaf children into an ordered mapping appends
one entry per child, in order. -/
theorem xmltodictFields_leaves (cs : List (String × String)) :
    (cs.map Prod.fst).Nodup →
    ∀ acc : List (String × JVal), (∀ q ∈ acc, q.1 ∉ cs.map Prod.fst) →
    xmltodict.xmltodictFields acc (cs.map fun p => Element.node p.1 [] p.2)
      = acc ++ cs.map fun p =>
          (p.1, xmltodict.xmltodictValue (Element.node p.1 [] p.2)) := by
  induction cs with
  | nil => intro _ acc _; simp [xmltodict.xmltodictFields]
  | cons p ps ih =>
    intro hnodup acc hacc
    have hfresh : ∀ q ∈ acc, q.1 ≠ p.1 := by
      intro q hq
      have := hacc q hq
      simp only [List.map_cons, List.mem_cons] at this
      exact fun hqp => this (Or.inl hqp)
    have hstep : xmltodict.xmltodictFields acc
        ((p :: ps).map fun p => Element.node p.1 [] p.2)
      = xmltodict.xmltodictFields
          (xmltodict.addField acc (Element.tag (Element.node p.1 [] p.2))
            (xmltodict.xmltodictValue (Element.node p.1 [] p.2)))
          (ps.map fun p => Element.node p.1 [] p.2) := by
      simp [xmltodict.xmltodictFields]
    rw [hstep]
    have htag : Element.tag (Element.node p.1 [] p.2) = p.1 := rfl
    rw [htag, addField_of_fresh acc p.1 _ hfresh]
    have hnodup' : (ps.map Prod.fst).Nodup := by
      simp only [List.map_cons, List.nodup_cons] at hnodup
      exact hnodup.2
    have hp1 : p.1 ∉ ps.map Prod.fst := by
      simp only [List.map_cons, List.nodup_cons] at hnodup
      exact hnodup.1
    rw [ih hnodup' (acc ++ [(p.1, xmltodict.xmltodictValue (Element.node p.1 [] p.2))]) ?_]
    · simp
    · intro q hq
      rcases List.mem_append.mp hq with hq1 | hq2
      · intro hmem
        exact hacc q hq1 (List.mem_cons_of_mem _ hmem)
      · simp only [List.mem_singleton] at hq2
        subst hq2
        exact hp1

/-- The `xmltodict` value of a non-mixed element whose children are distinct
nonempty-text leaves is the ordered mapping of tags to texts. -/
theorem xmltodictValue_root (root : String) (cs : List (String × String))
    (hne : cs ≠ []) (hnodup : (cs.map Prod.fst).Nodup)
    (htext : ∀ p ∈ cs, p.2 ≠ "") :
    xmltodict.xmltodictValue (Element.node root (cs.map fun p => Element.node p.1 [] p.2) "")
      = JVal.obj (cs.map fun p => (p.1, JVal.s p.2)) := by
  obtain ⟨q, qs, rfl⟩ := List.exists_cons_of_ne_nil hne
  have hfields := xmltodictFields_leaves (q :: qs) hnodup [] (by simp)
  simp only [List.map_cons] at hfields ⊢
  simp only [xmltodict.xmltodictValue, hfields, if_true, List.nil_append]
  rw [if_neg (htext q (List.mem_cons_self _ _))]
  congr 2
  refine List.map_congr_left ?_
  intro p hp
  rw [if_neg (htext p (List.mem_cons_of_mem _ hp))]

/-- A close tag `</` stops the sibling-run parser without consuming input. -/
theorem parseChildrenCL_stop (fuel : Nat) (r : List Char) :
    xmltodict.parseChildrenCL fuel ('<' :: '/' :: r) = some ([], '<' :: '/' :: r) := by
  rw [xmltodict.parseChildrenCL.eq_def]
  simp [startsWithCL]

/-- Parsing a serialized leaf `<tag>text</tag>` recovers the leaf and leaves
the rest of the input untouched. -/
theorem parseElemCL_leaf (fuel : Nat) (tg tx : String) (r : List Char)
    (ht : wfXmlTag tg) (hx : wfXmlText tx) :
    xmltodict.parseElemCL (fuel + 1)
        ('<' :: (tg.data ++ '>' :: (tx.data ++ '<' :: '/' :: (tg.data ++ '>' :: r))))
      = some (Element.node tg [] tx, r) := by
  obtain ⟨-, hlt, hgt, -⟩ := ht
  obtain ⟨-, hxlt⟩ := hx
  simp only [xmltodict.parseElemCL,
    takeWhile_neq_append tg.data '>' hgt, dropWhile_neq_append tg.data '>' hgt,
    takeWhile_neq_append tx.data '<' hxlt, dropWhile_neq_append tx.data '<' hxlt,
    parseChildrenCL_stop]
  simp [takeWhile_neq_append tg.data '>' hgt, dropWhile_neq_append tg.data '>' hgt]

/-- Parsing a run of serialized leaves recovers them all, stopping at the
enclosing close tag. -/
theorem parseChildrenCL_leaves (cs : List (String × String)) (r : List Char) :
    ∀ fuel, cs.length < fuel →
    (∀ p ∈ cs, wfXmlTag p.1 ∧ wfXmlText p.2) →
    xmltodict.parseChildrenCL fuel (serializeLeaves cs ++ '<' :: '/' :: r)
      = some (cs.map (fun p => Element.node p.1 [] p.2), '<' :: '/' :: r) := by
  induction cs with
  | nil =>
    intro fuel _ _
    simp [serializeLeaves, parseChildrenCL_stop]
  | cons p ps ih =>
    intro fuel hfuel hwf
    obtain ⟨⟨htne, htlt, htgt, htsl⟩, hx⟩ := hwf p (List.mem_cons_self _ _)
    obtain ⟨t0, ts, ht0⟩ := List.exists_cons_of_ne_nil htne
    have ht0sl : t0 ≠ '/' := by
      intro h0
      exact htsl (by rw [ht0, h0]; exact List.mem_cons_self _ _)
    match fuel, hfuel with
    | Nat.succ f, hfuel =>
      have hstart : startsWithCL ['<', '/']
          (serializeLeaf p ++ serializeLeaves ps ++ '<' :: '/' :: r) = false := by
        simp only [serializeLeaf, ht0, List.cons_append, List.append_assoc, startsWithCL]
        simp [ht0sl.symm]
      rw [show serializeLeaves (p :: ps) ++ '<' :: '/' :: r
          = serializeLeaf p ++ serializeLeaves ps ++ '<' :: '/' :: r by
        simp [serializeLeaves, List.append_assoc]]
      rw [xmltodict.parseChildrenCL, hstart]
      simp only [Bool.false_eq_true, if_false]
      match f, hfuel with
      | Nat.succ g, hfuel =>
        have hleaf : xmltodict.parseElemCL (g + 1)
            (serializeLeaf p ++ serializeLeaves ps ++ '<' :: '/' :: r)
            = some (Element.node p.1 [] p.2, serializeLeaves ps ++ '<' :: '/' :: r) := by
          rw [show serializeLeaf p ++ serializeLeaves ps ++ '<' :: '/' :: r
              = '<' :: (p.1.data ++ '>' :: (p.2.data ++ '<' :: '/' ::
                  (p.1.data ++ '>' :: (serializeLeaves ps ++ '<' :: '/' :: r)))) by
            simp [serializeLeaf, List.append_assoc]]
          exact parseElemCL_leaf g p.1 p.2 _ ⟨htne, htlt, htgt, htsl⟩ hx
        rw [hleaf]
        have hrec := ih (Nat.succ g) (by simpa using Nat.lt_of_succ_lt_succ hfuel)
          (fun q hq => hwf q (List.mem_cons_of_mem _ hq))
        simp [hrec]

/-- Parsing the serialization of a root with nonempty-text leaf children
recovers the element exactly, consuming the whole input. -/
theorem parseElemCL_root (root : String) (cs : List (String × String)) (f : Nat)
    (hroot : wfXmlTag root) (hcs : ∀ p ∈ cs, wfXmlTag p.1 ∧ wfXmlText p.2)
    (hne : cs ≠ []) (hf : cs.length < f) :
    xmltodict.parseElemCL (f + 1)
        ('<' :: (root.data ++ '>' :: (serializeLeaves cs ++ '<' :: '/' ::
            (root.data ++ ['>']))))
      = some (Element.node root (cs.map fun p => Element.node p.1 [] p.2) "", []) := by
  obtain ⟨-, hlt, hgt, -⟩ := hroot
  obtain ⟨q, qs, rfl⟩ := List.exists_cons_of_ne_nil hne
  obtain ⟨⟨hqne, -, -, -⟩, -⟩ := hcs q (List.mem_cons_self _ _)
  obtain ⟨t0, ts, ht0⟩ := List.exists_cons_of_ne_nil hqne
  have hhead : serializeLeaves (q :: qs) ++ '<' :: '/' :: (root.data ++ ['>'])
      = '<' :: (q.1.data ++ '>' :: (q.2.data ++ '<' :: '/' :: (q.1.data ++ '>' ::
          (serializeLeaves qs ++ '<' :: '/' :: (root.data ++ ['>']))))) := by
    simp [serializeLeaves, serializeLeaf, List.append_assoc]
  have hchildren := parseChildrenCL_leaves (q :: qs) (root.data ++ ['>']) f hf hcs
  rw [show serializeLeaves (q :: qs) ++ '<' :: '/' :: (root.data ++ ['>'])
      = (serializeLeaves (q :: qs) ++ '<' :: '/' :: (root.data ++ ['>'])) from rfl]
  simp only [xmltodict.parseElemCL,
    takeWhile_neq_append root.data '>' hgt, dropWhile_neq_append root.data '>' hgt]
  rw [show ((serializeLeaves (q :: qs) ++ '<' :: '/' :: (root.data ++ ['>'])) :
      List Char).takeWhile (fun d => d ≠ '<') = [] by
    rw [hhead]; simp]
  rw [show ((serializeLeaves (q :: qs) ++ '<' :: '/' :: (root.data ++ ['>'])) :
      List Char).dropWhile (fun d => d ≠ '<')
      = serializeLeaves (q :: qs) ++ '<' :: '/' :: (root.data ++ ['>']) by
    rw [hhead]; simp]
  rw [hchildren]
  simp only [takeWhile_neq_append root.data '>' hgt,
    dropWhile_neq_append root.data '>' hgt]
  simp

/-- Serializing a nonempty-text leaf yields `<tag>text</tag>`. -/
theorem tostring_leaf_data (tg tx : String) (hx : tx ≠ "") :
    (tostring (Element.node tg [] tx)).data = serializeLeaf (tg, tx) := by
  simp only [tostring, hx, if_false, serializeLeaf, String.data_append]
  simp [show ("<").data = ['<'] from rfl, show (">").data = ['>'] from rfl,
    show ("</").data = ['<', '/'] from rfl]

/-- Serializing a list of nonempty-text leaves concatenates their
serializations. -/
theorem tostringList_leaves_data (cs : List (String × String))
    (htext : ∀ p ∈ cs, p.2 ≠ "") :
    (tostringList (cs.map fun p => Element.node p.1 [] p.2)).data
      = serializeLeaves cs := by
  induction cs with
  | nil => rfl
  | cons p ps ih =>
    simp only [List.map_cons, tostringList, String.data_append, serializeLeaves]
    rw [tostring_leaf_data p.1 p.2 (htext p (List.mem_cons_self _ _)),
      ih (fun q hq => htext q (List.mem_cons_of_mem _ hq))]

/-- The character-level shape of the serialized root with leaf children. -/
theorem tostring_root_data (root : String) (cs : List (String × String))
    (hne : cs ≠ []) (htext : ∀ p ∈ cs, p.2 ≠ "") :
    (tostring (Element.node root (cs.map fun p => Element.node p.1 [] p.2) "")).data
      = '<' :: (root.data ++ '>' :: (serializeLeaves cs ++ '<' :: '/' ::
          (root.data ++ ['>']))) := by
  obtain ⟨q, qs, rfl⟩ := List.exists_cons_of_ne_nil hne
  have hlist := tostringList_leaves_data (q :: qs) htext
  simp only [List.map_cons] at hlist
  simp only [List.map_cons, tostring, String.data_append, hlist]
  simp [show ("<").data = ['<'] from rfl, show (">").data = ['>'] from rfl,
    show ("</").data = ['<', '/'] from rfl, show ("").data = ([] : List Char) from rfl]

/-- A serialized leaf list is at least as long (in characters) as the number
of leaves. -/
theorem serializeLeaves_length_ge (cs : List (String × String)) :
    cs.length ≤ (serializeLeaves cs).length := by
  induction cs with
  | nil => simp [serializeLeaves]
  | cons p ps ih =>
    simp only [serializeLeaves, serializeLeaf, List.length_cons, List.length_append]
    omega

/-- Decoding the serialization of a root with distinct nonempty-text leaf
children yields the nested ordered map `{root: {tag: text, …}}`. -/
theorem xmltodict_parse_roundtrip (root : String) (cs : List (String × String))
    (hroot : wfXmlTag root) (hcs : ∀ p ∈ cs, wfXmlTag p.1 ∧ wfXmlText p.2)
    (hne : cs ≠ []) (hnodup : (cs.map Prod.fst).Nodup) :
    xmltodict.parse
        (tostring (Element.node root (cs.map fun p => Element.node p.1 [] p.2) ""))
      = some (JVal.obj [(root, JVal.obj (cs.map fun p => (p.1, JVal.s p.2)))]) := by
  have htext : ∀ p ∈ cs, p.2 ≠ "" := by
    intro p hp hp2
    have hdata := (hcs p hp).2.1
    apply hdata
    rw [hp2]
  have hdata := tostring_root_data root cs hne htext
  unfold xmltodict.parse
  rw [hdata]
  have hlen : cs.length <
      ('<' :: (root.data ++ '>' :: (serializeLeaves cs ++ '<' :: '/' ::
        (root.data ++ ['>'])))).length := by
    have := serializeLeaves_length_ge cs
    simp only [List.length_cons, List.length_append]
    omega
  rw [show ('<' :: (root.data ++ '>' :: (serializeLeaves cs ++ '<' :: '/' ::
        (root.data ++ ['>'])))).length + 1
      = ('<' :: (root.data ++ '>' :: (serializeLeaves cs ++ '<' :: '/' ::
        (root.data ++ ['>'])))).length + 1 from rfl]
  rw [parseElemCL_root root cs _ hroot hcs hne hlen]
  simp [Element.tag, xmltodictValue_root root cs hne hnodup htext]

/-- C8: `xml_to_json_elem` on a fragment whose root carries distinct
nonempty-text leaf children yields the nested ordered map
`{rootTag: {childTag: childText, …}}`, whether the fragment is handed over as
an already-parsed element or as its raw serialized string. -/
theorem C8_decode_nested_map (root : String) (cs : List (String × String))
    (hroot : wfXmlTag root) (hcs : ∀ p ∈ cs, wfXmlTag p.1 ∧ wfXmlText p.2)
    (hne : cs ≠ []) (hnodup : (cs.map Prod.fst).Nodup) :
    CspcApi.xml_to_json_elem
        (Sum.inl (Element.node root (cs.map fun p => Element.node p.1 [] p.2) ""))
      = some (JVal.obj [(root, JVal.obj (cs.map fun p => (p.1, JVal.s p.2)))])
    ∧ CspcApi.xml_to_json_elem
        (Sum.inr (tostring (Element.node root (cs.map fun p => Element.node p.1 [] p.2) "")))
      = some (JVal.obj [(root, JVal.obj (cs.map fun p => (p.1, JVal.s p.2)))]) := by
  have key := xmltodict_parse_roundtrip root cs hroot hcs hne hnodup
  exact ⟨key, key⟩

/-- Witness for C8: `<Device><Id>1</Id><HostName>x</HostName></Device>`
decodes — both from the parsed element and from the raw string — to
`{Device: {Id: "1", HostName: "x"}}`. -/
theorem C8_decode_nested_map_witness :
    CspcApi.xml_to_json_elem
        (Sum.inl (Element.node "Device"
          [Element.node "Id" [] "1", Element.node "HostName" [] "x"] ""))
      = some (JVal.obj [("Device",
          JVal.obj [("Id", JVal.s "1"), ("HostName", JVal.s "x")])])
    ∧ CspcApi.xml_to_json_elem
        (Sum.inr "<Device><Id>1</Id><HostName>x</HostName></Device>")
      = some (JVal.obj [("Device",
          JVal.obj [("Id", JVal.s "1"), ("HostName", JVal.s "x")])]) := by
  have h := C8_decode_nested_map "Device" [("Id", "1"), ("HostName", "x")]
    (by decide) (by decide) (by decide) (by decide)
  have hs : tostring (Element.node "Device"
      [Element.node "Id" [] "1", Element.node "HostName" [] "x"] "")
      = "<Device><Id>1</Id><HostName>x</HostName></Device>" := by
    simp [tostring, tostringList]
  refine ⟨h.1, ?_⟩
  rw [← hs]
  exact h.2

/-- C9: an empty set value matches no device: `get_devices_by` with `set()`
returns the empty list on every device list and every key, even when some
device has no `key` child at all (the `any` over an empty generator is `False`
before the text is ever touched). -/
theorem C9_empty_set_matches_nothing (devices : List Element) (key : String) :
    CspcApi.get_devices_by devices key (CspcApi.StrOrSet.set []) = Except.ok [] := by
  induction devices with
  | nil => rfl
  | cons device rest ih =>
    unfold CspcApi.get_devices_by
    rw [ih]
    rfl
